import Mathlib

/-!
Shallow embedding of the ledger-posting statement engine
(`postings-logic/src/services/account_stmt_service.rs` and
`postings-logic/src/mappers/ledger_account.rs`).

Conventions of the embedding:
* `Uuid` values become `Nat`, drawn from a fresh-id counter in the store
  (`Uuid::new_v4()` = take the counter, bump it);
* `DateTime<Utc>` becomes `Int`; `Utc::now()` reads the store's `now` field;
* `BigDecimal` becomes `Int` (exact arithmetic);
* each repository is a list of rows inside a `Store`; `save` appends a row;
  queries are modelled from the spec (§6) because the `postings-db`
  implementations are not part of the two source files;
* fallible service calls return `Res α`: `ok` with the value and the store,
  `err` with a `ServiceError` and the store, or `crashed` for the two
  unchecked `unwrap()` calls in `close_stmt`.
-/

abbrev Uuid := Nat
abbrev Time := Int
abbrev Amount := Int
abbrev Hash := Nat

/-- Persisted (`postings_db`) balance side, from `models/balance_side.rs`. -/
inductive BalanceSide where
  | Dr | Cr | DrCr
deriving DecidableEq, Repr

/-- Domain (`postings_api`) balance side. -/
inductive ApiBalanceSide where
  | Dr | Cr | DrCr
deriving DecidableEq, Repr

/-- Persisted account category, from `models/account_category.rs`. -/
inductive AccountCategory where
  | RE | EX | AS | LI | EQ | NOOP | NORE | NOEX
deriving DecidableEq, Repr

/-- Domain account category. -/
inductive ApiAccountCategory where
  | RE | EX | AS | LI | EQ | NOOP | NORE | NOEX
deriving DecidableEq, Repr

/-- Persisted statement status (`postings_db::models::stmt_status::StmtStatus`). -/
inductive StmtStatus where
  | Simulated | Closed
deriving DecidableEq, Repr

/-- Domain statement status (`postings_api::domain::stmt_status::StmtStatus`). -/
inductive ApiStmtStatus where
  | SIMULATED | CLOSED
deriving DecidableEq, Repr

/-- Domain posting type; `BalStmt` marks a balance-statement (closing) posting. -/
inductive PostingType where
  | BusiTx | BalStmt
deriving DecidableEq, Repr

/-- Domain posting status. -/
inductive PostingStatus where
  | Posted | Simulated
deriving DecidableEq, Repr

/-- The persisted-to-domain balance-side translation, the `match` inside
`LedgerAccountMapper::to_bo`. -/
def balanceSideToBo : BalanceSide → ApiBalanceSide
  | BalanceSide.Dr => ApiBalanceSide.Dr
  | BalanceSide.Cr => ApiBalanceSide.Cr
  | BalanceSide.DrCr => ApiBalanceSide.DrCr

/-- The domain-to-persisted balance-side translation, the `match` inside
`LedgerAccountMapper::to_model`. -/
def balanceSideToModel : ApiBalanceSide → BalanceSide
  | ApiBalanceSide.Dr => BalanceSide.Dr
  | ApiBalanceSide.Cr => BalanceSide.Cr
  | ApiBalanceSide.DrCr => BalanceSide.DrCr

/-- The persisted-to-domain account-category translation, the `match` inside
`LedgerAccountMapper::to_bo`. -/
def categoryToBo : AccountCategory → ApiAccountCategory
  | AccountCategory.RE => ApiAccountCategory.RE
  | AccountCategory.EX => ApiAccountCategory.EX
  | AccountCategory.AS => ApiAccountCategory.AS
  | AccountCategory.LI => ApiAccountCategory.LI
  | AccountCategory.EQ => ApiAccountCategory.EQ
  | AccountCategory.NOOP => ApiAccountCategory.NOOP
  | AccountCategory.NORE => ApiAccountCategory.NORE
  | AccountCategory.NOEX => ApiAccountCategory.NOEX

/-- The domain-to-persisted account-category translation, the `match` inside
`LedgerAccountMapper::to_model`. -/
def categoryToModel : ApiAccountCategory → AccountCategory
  | ApiAccountCategory.RE => AccountCategory.RE
  | ApiAccountCategory.EX => AccountCategory.EX
  | ApiAccountCategory.AS => AccountCategory.AS
  | ApiAccountCategory.LI => AccountCategory.LI
  | ApiAccountCategory.EQ => AccountCategory.EQ
  | ApiAccountCategory.NOOP => AccountCategory.NOOP
  | ApiAccountCategory.NORE => AccountCategory.NORE
  | ApiAccountCategory.NOEX => AccountCategory.NOEX

/-- Persisted-to-domain statement status, the `match` inside
`AccountStmtServiceImpl::stmt`. -/
def stmtStatusToBo : StmtStatus → ApiStmtStatus
  | StmtStatus.Simulated => ApiStmtStatus.SIMULATED
  | StmtStatus.Closed => ApiStmtStatus.CLOSED

/-- Modelled from the spec: the inverse status translation used by
`AccountStmtMapper::from_bo` (mapper source not under `src/`); §4.1 requires a
total bidirectional mapping. -/
def stmtStatusToModel : ApiStmtStatus → StmtStatus
  | ApiStmtStatus.SIMULATED => StmtStatus.Simulated
  | ApiStmtStatus.CLOSED => StmtStatus.Closed

/-- Persisted ledger account row (`postings_db::models::ledger_account`). -/
structure LedgerAccountModel where
  id : Uuid
  ledger_id : Uuid
  parent_id : Option Uuid
  coa_id : Uuid
  balance_side : BalanceSide
  category : AccountCategory
deriving DecidableEq, Repr

/-- Persisted ledger row: identity and its chart-of-accounts reference. -/
structure LedgerModel where
  id : Uuid
  coa_id : Uuid
deriving DecidableEq, Repr

/-- Persisted chart-of-accounts row. -/
structure ChartOfAccountModel where
  id : Uuid
deriving DecidableEq, Repr

/-- Persisted posting line (`postings_db::models::posting_line`): the fields
read by the statement aggregator. -/
structure PostingLine where
  id : Uuid
  account_id : Uuid
  debit_amount : Amount
  credit_amount : Amount
  pst_time : Time
  opr_id : Uuid
  hash : Option Hash
deriving DecidableEq, Repr

/-- Persisted posting trace (`postings_db::models::posting_trace`). -/
structure PostingTrace where
  id : Uuid
  tgt_pst_id : Uuid
  src_pst_time : Time
  src_pst_id : Uuid
  src_opr_id : Uuid
  account_id : Uuid
  debit_amount : Amount
  credit_amount : Amount
  src_pst_hash : Option Hash
deriving DecidableEq, Repr

/-- Persisted account statement row (`postings_db::models::account_stmt`). -/
structure AccountStmtModel where
  id : Uuid
  account_id : Uuid
  youngest_pst_id : Option Uuid
  total_debit : Amount
  total_credit : Amount
  posting_id : Option Uuid
  pst_time : Time
  stmt_status : StmtStatus
  latest_pst_id : Option Uuid
  stmt_seq_nbr : Int
deriving DecidableEq, Repr

/-- Persisted posting row: identity, owning ledger, times, type/status and the
stored hash-chain fields. -/
structure PostingModel where
  id : Uuid
  ledger_id : Uuid
  record_user : Nat
  record_time : Time
  opr_id : Nat
  opr_time : Time
  opr_type : Nat
  pst_time : Time
  pst_type : PostingType
  pst_status : PostingStatus
  val_time : Option Time
  hash : Option Hash
  antecedent_id : Option Uuid
  antecedent_hash : Option Hash
deriving DecidableEq, Repr

/-- Domain chart of accounts. -/
structure ChartOfAccountBO where
  id : Uuid
deriving DecidableEq, Repr

/-- Domain ledger: identity plus its chart of accounts. -/
structure LedgerBO where
  id : Uuid
  coa : ChartOfAccountBO
deriving DecidableEq, Repr

/-- Domain ledger account (`postings_api::domain::ledger_account`): recursive
because of the optional boxed parent account. -/
inductive LedgerAccountBO : Type where
  | mk : Uuid → LedgerBO → Option LedgerAccountBO → ChartOfAccountBO →
      ApiBalanceSide → ApiAccountCategory → LedgerAccountBO

def LedgerAccountBO.id : LedgerAccountBO → Uuid
  | LedgerAccountBO.mk i _ _ _ _ _ => i

def LedgerAccountBO.ledger : LedgerAccountBO → LedgerBO
  | LedgerAccountBO.mk _ l _ _ _ _ => l

def LedgerAccountBO.parent : LedgerAccountBO → Option LedgerAccountBO
  | LedgerAccountBO.mk _ _ p _ _ _ => p

def LedgerAccountBO.coa : LedgerAccountBO → ChartOfAccountBO
  | LedgerAccountBO.mk _ _ _ c _ _ => c

def LedgerAccountBO.balance_side : LedgerAccountBO → ApiBalanceSide
  | LedgerAccountBO.mk _ _ _ _ b _ => b

def LedgerAccountBO.category : LedgerAccountBO → ApiAccountCategory
  | LedgerAccountBO.mk _ _ _ _ _ c => c

/-- Embeds `LedgerAccountMapper::to_bo` from `mappers/ledger_account.rs`. -/
def LedgerAccountMapper.to_bo (model : LedgerAccountModel) (ledger_bo : LedgerBO)
    (coa_bo : ChartOfAccountBO) (parent_bo : Option LedgerAccountBO) : LedgerAccountBO :=
  LedgerAccountBO.mk model.id ledger_bo parent_bo coa_bo
    (balanceSideToBo model.balance_side) (categoryToBo model.category)

/-- Embeds `LedgerAccountMapper::to_model` from `mappers/ledger_account.rs`. -/
def LedgerAccountMapper.to_model (bo : LedgerAccountBO) : LedgerAccountModel :=
  { id := bo.id
    ledger_id := bo.ledger.id
    parent_id := bo.parent.map LedgerAccountBO.id
    coa_id := bo.coa.id
    balance_side := balanceSideToModel bo.balance_side
    category := categoryToModel bo.category }

/-- Embeds `ChartOfAccountMapper::to_bo`: Modelled from the spec: mechanical
field-by-field translation (§1); mapper source not under `src/`. -/
def ChartOfAccountMapper.to_bo (m : ChartOfAccountModel) : ChartOfAccountBO :=
  { id := m.id }

/-- Embeds `LedgerMapper::to_bo`: Modelled from the spec: mechanical translation of a
ledger row given its chart-of-accounts business object. -/
def LedgerMapper.to_bo (m : LedgerModel) (coa_bo : ChartOfAccountBO) : LedgerBO :=
  { id := m.id, coa := coa_bo }

/-- Hash-chain record of a domain posting: own content hash plus the
antecedent's id and stored hash (`Default::default()` = all empty). -/
structure HashRecord where
  hash : Option Hash
  antecedent_id : Option Uuid
  antecedent_hash : Option Hash
deriving DecidableEq, Repr

/-- Domain posting line reference (closing postings always carry `lines = []`,
so only the identity is modelled). -/
structure PostingLineBO where
  id : Uuid
deriving DecidableEq, Repr

/-- Domain posting (`postings_api::domain::posting::Posting`), with the fields
`close_stmt` constructs; the three 34-byte operator arrays become `Nat`s. -/
structure Posting where
  id : Uuid
  record_user : Nat
  record_time : Time
  opr_id : Nat
  opr_time : Time
  opr_type : Nat
  opr_details : Option Nat
  opr_src : Option Nat
  pst_time : Time
  pst_type : PostingType
  pst_status : PostingStatus
  ledger : LedgerBO
  val_time : Option Time
  lines : List PostingLineBO
  discarded_id : Option Uuid
  discarded_time : Option Time
  discarding_id : Option Uuid
  hash_record : HashRecord
deriving DecidableEq, Repr

/-- Domain posting trace: Modelled from the spec: the persisted trace with the
account resolved to its business object (`PostingTraceMapper::to_bo` source not
under `src/`). -/
structure PostingTraceBO where
  id : Uuid
  tgt_pst_id : Uuid
  src_pst_time : Time
  src_pst_id : Uuid
  src_opr_id : Uuid
  account : LedgerAccountBO
  debit_amount : Amount
  credit_amount : Amount
  src_pst_hash : Option Hash

/-- Embeds `PostingTraceMapper::to_bo`: Modelled from the spec: mechanical
field-by-field translation, resolving the account. -/
def PostingTraceMapper.to_bo (tm : PostingTrace) (ledger_account : LedgerAccountBO) :
    PostingTraceBO :=
  { id := tm.id
    tgt_pst_id := tm.tgt_pst_id
    src_pst_time := tm.src_pst_time
    src_pst_id := tm.src_pst_id
    src_opr_id := tm.src_opr_id
    account := ledger_account
    debit_amount := tm.debit_amount
    credit_amount := tm.credit_amount
    src_pst_hash := tm.src_pst_hash }

/-- Embeds `PostingMapper::to_bo`: Modelled from the spec: translation of a posting
row into a domain posting given the ledger business object and lines. -/
def PostingMapper.to_bo (pm : PostingModel) (ledger_bo : LedgerBO)
    (lines : List PostingLineBO) : Posting :=
  { id := pm.id
    record_user := pm.record_user
    record_time := pm.record_time
    opr_id := pm.opr_id
    opr_time := pm.opr_time
    opr_type := pm.opr_type
    opr_details := none
    opr_src := none
    pst_time := pm.pst_time
    pst_type := pm.pst_type
    pst_status := pm.pst_status
    ledger := ledger_bo
    val_time := pm.val_time
    lines := lines
    discarded_id := none
    discarded_time := none
    discarding_id := none
    hash_record :=
      { hash := pm.hash
        antecedent_id := pm.antecedent_id
        antecedent_hash := pm.antecedent_hash } }

/-- Embeds `PostingMapper::to_model`: Modelled from the spec: translation of a domain
posting into its persisted row. -/
def PostingMapper.to_model (p : Posting) : PostingModel :=
  { id := p.id
    ledger_id := p.ledger.id
    record_user := p.record_user
    record_time := p.record_time
    opr_id := p.opr_id
    opr_time := p.opr_time
    opr_type := p.opr_type
    pst_time := p.pst_time
    pst_type := p.pst_type
    pst_status := p.pst_status
    val_time := p.val_time
    hash := p.hash_record.hash
    antecedent_id := p.hash_record.antecedent_id
    antecedent_hash := p.hash_record.antecedent_hash }

/-- Domain financial statement (`postings_api::domain::financial_stmt`). -/
structure FinancialStmt where
  id : Uuid
  posting : Option Posting
  pst_time : Time
  stmt_status : ApiStmtStatus
  latest_pst : Option PostingTraceBO
  stmt_seq_nbr : Int

/-- Domain account statement (`postings_api::domain::account_stmt`). -/
structure AccountStmtBO where
  financial_stmt : FinancialStmt
  account : LedgerAccountBO
  youngest_pst : Option PostingTraceBO
  total_debit : Amount
  total_credit : Amount

/-- Embeds `AccountStmtMapper::from_bo`: Modelled from the spec: the inverse
field-by-field translation back into a statement row (§4.1 total mapping). -/
def AccountStmtMapper.from_bo (bo : AccountStmtBO) : AccountStmtModel :=
  { id := bo.financial_stmt.id
    account_id := bo.account.id
    youngest_pst_id := bo.youngest_pst.map PostingTraceBO.id
    total_debit := bo.total_debit
    total_credit := bo.total_credit
    posting_id := bo.financial_stmt.posting.map Posting.id
    pst_time := bo.financial_stmt.pst_time
    stmt_status := stmtStatusToModel bo.financial_stmt.stmt_status
    latest_pst_id := bo.financial_stmt.latest_pst.map PostingTraceBO.id
    stmt_seq_nbr := bo.financial_stmt.stmt_seq_nbr }

/-- Embeds `ServiceError` (`postings_api::ServiceError`), the variants this service
produces. -/
inductive ServiceError where
  | Db
  | LedgerAccountNotFound
  | StatementNotFound
  | StatementAlreadyClosed
  | NotEnoughInfo
deriving DecidableEq, Repr

/-- Backing storage: one list of rows per repository, the fresh-id counter for
`Uuid::new_v4()` and the clock for `Utc::now()`. -/
structure Store where
  accounts : List LedgerAccountModel
  stmts : List AccountStmtModel
  lines : List PostingLine
  traces : List PostingTrace
  postings : List PostingModel
  ledgers : List LedgerModel
  coas : List ChartOfAccountModel
  nextId : Nat
  now : Time
deriving DecidableEq, Repr

/-- Outcome of a service call: success or error, each carrying the storage
state at return, or an abort from an unchecked `unwrap()`. -/
inductive Res (α : Type) where
  | ok : α → Store → Res α
  | err : ServiceError → Store → Res α
  | crashed : Store → Res α

/-- The storage state a service call left behind. -/
def Res.store {α : Type} : Res α → Store
  | Res.ok _ st => st
  | Res.err _ st => st
  | Res.crashed st => st

/-- Insert a posting line into a list sorted by ascending effective time. -/
def insertByTime (l : PostingLine) : List PostingLine → List PostingLine
  | [] => [l]
  | x :: xs =>
    if decide (l.pst_time ≤ x.pst_time) then l :: x :: xs else x :: insertByTime l xs

/-- Sort posting lines by ascending effective time (the repositories return
ordered collections, spec §4.3 step 4 / §6). -/
def sortByTime : List PostingLine → List PostingLine
  | [] => []
  | x :: xs => insertByTime x (sortByTime xs)

/-- Embeds `SharedService::load_ledger_account`: Modelled from the spec:
load-by-id over the account directory (§6). -/
def load_ledger_account (st : Store) (i : Uuid) : Option LedgerAccountModel :=
  st.accounts.find? (fun m => m.id == i)

/-- Latest-by-`pst_time` choice among statement rows; on ties the earlier row
wins, as a stable descending sort's first element would. -/
def maxByPstTime : List AccountStmtModel → Option AccountStmtModel
  | [] => none
  | s :: ss =>
    match maxByPstTime ss with
    | none => some s
    | some b => if decide (b.pst_time > s.pst_time) then some b else some s

/-- Embeds `stmt_repo.find_first_by_account_and_status_and_pst_time_less_than_ordered`
with status `Closed`: Modelled from the spec: the most recent statement for
the account with status Closed and effective time strictly before the bound
(§4.3 step 2, §6). -/
def findLastClosed (stmts : List AccountStmtModel) (a : Uuid) (t : Time) :
    Option AccountStmtModel :=
  maxByPstTime (stmts.filter (fun s =>
    s.account_id == a && s.stmt_status == StmtStatus.Closed && decide (s.pst_time < t)))

/-- Embeds `line_repo.find_by_account_and_pst_time_between`: Modelled from the spec:
lines for the account with effective time in the window, both ends inclusive
(§4.3 step 3), ordered by ascending time. -/
def find_by_account_and_pst_time_between (lines : List PostingLine) (a : Uuid)
    (tfrom : Time) (tto : Time) : List PostingLine :=
  sortByTime (lines.filter (fun l =>
    l.account_id == a && decide (tfrom ≤ l.pst_time) && decide (l.pst_time ≤ tto)))

/-- Embeds `line_repo.find_by_account_and_pst_time_less_than_equal`: Modelled from the
spec: every line for the account with effective time ≤ the bound (§4.3 step 3),
ordered by ascending time. -/
def find_by_account_and_pst_time_less_than_equal (lines : List PostingLine) (a : Uuid)
    (t : Time) : List PostingLine :=
  sortByTime (lines.filter (fun l => l.account_id == a && decide (l.pst_time ≤ t)))

/-- Embeds `trace_repo.find_by_id`: Modelled from the spec: load-by-id (§6). -/
def trace_find_by_id (traces : List PostingTrace) (i : Uuid) : Option PostingTrace :=
  traces.find? (fun tm => tm.id == i)

/-- Embeds `posting_repo.find_by_id`: Modelled from the spec: load-by-id (§6). -/
def posting_find_by_id (postings : List PostingModel) (i : Uuid) : Option PostingModel :=
  postings.find? (fun pm => pm.id == i)

/-- Embeds `stmt_repo.find_by_id`: Modelled from the spec: load-by-id (§6). -/
def stmt_find_by_id (stmts : List AccountStmtModel) (i : Uuid) : Option AccountStmtModel :=
  stmts.find? (fun s => s.id == i)

/-- Embeds `ledger_repo.find_by_id`: Modelled from the spec: load-by-id (§6). -/
def ledger_find_by_id (ledgers : List LedgerModel) (i : Uuid) : Option LedgerModel :=
  ledgers.find? (fun l => l.id == i)

/-- Embeds `coa_repo.find_by_id`: Modelled from the spec: load-by-id (§6). -/
def coa_find_by_id (coas : List ChartOfAccountModel) (i : Uuid) : Option ChartOfAccountModel :=
  coas.find? (fun c => c.id == i)

/-- Latest-by-`record_time` choice among posting rows; on ties the earlier row
wins, as a stable descending sort's first element would. -/
def maxByRecordTime : List PostingModel → Option PostingModel
  | [] => none
  | p :: ps =>
    match maxByRecordTime ps with
    | none => some p
    | some b => if decide (b.record_time > p.record_time) then some b else some p

/-- Embeds `posting_repo.find_first_by_ledger_order_by_record_time_desc`: Modelled
from the spec: the most recently recorded posting in the ledger (§4.2). -/
def find_first_by_ledger_order_by_record_time_desc (postings : List PostingModel)
    (ledger_id : Uuid) : Option PostingModel :=
  maxByRecordTime (postings.filter (fun p => p.ledger_id == ledger_id))

/-- Embeds `hash_serialize` from `hash_utils`: Modelled from the spec: a
deterministic function of the posting's content, the hash fields themselves
excluded (§4.2 `compute_hash`); the cryptographic function is abstracted to a
simple arithmetic mix. -/
def hash_serialize (p : Posting) : Option Hash :=
  some (p.id + 3 * p.ledger.id + 5 * p.pst_time.natAbs + 7 * p.record_time.natAbs)

/-- Embeds `AccountStmtServiceImpl::create_posting_trace`: builds the trace row for
one consumed line; the fresh `Uuid::new_v4()` is passed in as `i`. -/
def create_posting_trace (i : Uuid) (stmt : AccountStmtModel) (line : PostingLine) :
    PostingTrace :=
  { id := i
    tgt_pst_id := stmt.id
    src_pst_time := line.pst_time
    src_pst_id := line.id
    src_opr_id := line.opr_id
    account_id := stmt.account_id
    debit_amount := line.debit_amount
    credit_amount := line.credit_amount
    src_pst_hash := line.hash }

/-- Embeds `AccountStmtServiceImpl::refresh_statement`: create a trace for the line,
set the first-trace pointer only if unset, always update the latest-trace
pointer, accumulate the totals, and save the trace. -/
def refresh_statement (st : Store) (stmt : AccountStmtModel) (line : PostingLine) :
    AccountStmtModel × Store :=
  let trace := create_posting_trace st.nextId stmt line
  let stmt :=
    { stmt with
        youngest_pst_id :=
          if stmt.youngest_pst_id.isNone then some trace.id else stmt.youngest_pst_id
        latest_pst_id := some trace.id
        total_debit := stmt.total_debit + line.debit_amount
        total_credit := stmt.total_credit + line.credit_amount }
  (stmt, { st with traces := st.traces ++ [trace], nextId := st.nextId + 1 })

/-- The `for line in posting_lines` loop of `AccountStmtServiceImpl::stmt`:
fold `refresh_statement` over the gathered lines. -/
def processLines (st : Store) (stmt : AccountStmtModel) :
    List PostingLine → AccountStmtModel × Store
  | [] => (stmt, st)
  | l :: ls =>
    let p := refresh_statement st stmt l
    processLines p.2 p.1 ls

/-- The tail of `AccountStmtServiceImpl::stmt` after the statement row and the
gathered lines are fixed: run the aggregation loop, resolve the trace and
posting pointers for display, and assemble the domain statement. -/
def stmtAssemble (st : Store) (ledger_account : LedgerAccountBO)
    (stmt0 : AccountStmtModel) (posting_lines : List PostingLine) : Res AccountStmtBO :=
  let p := processLines st stmt0 posting_lines
  let s := p.1
  let st1 := p.2
  let youngest_pst_bo := s.youngest_pst_id.bind (fun i =>
    (trace_find_by_id st1.traces i).map (fun tm => PostingTraceMapper.to_bo tm ledger_account))
  let latest_pst_bo := s.latest_pst_id.bind (fun i =>
    (trace_find_by_id st1.traces i).map (fun tm => PostingTraceMapper.to_bo tm ledger_account))
  let posting_bo := s.posting_id.bind (fun i =>
    (posting_find_by_id st1.postings i).map (fun pm =>
      PostingMapper.to_bo pm ledger_account.ledger []))
  Res.ok
    { financial_stmt :=
        { id := s.id
          posting := posting_bo
          pst_time := s.pst_time
          stmt_status := stmtStatusToBo s.stmt_status
          latest_pst := latest_pst_bo
          stmt_seq_nbr := s.stmt_seq_nbr }
      account := ledger_account
      youngest_pst := youngest_pst_bo
      total_debit := s.total_debit
      total_credit := s.total_credit } st1

/-- Embeds `AccountStmtServiceImpl::stmt`: resolve the account, pick the baseline
(most recent Closed statement strictly before `ref_time`) or start a fresh
Simulated statement, gather the lines, aggregate, and assemble the result. -/
def stmtF (st : Store) (ledger_account : LedgerAccountBO) (ref_time : Time) :
    Res AccountStmtBO :=
  match load_ledger_account st ledger_account.id with
  | none => Res.err ServiceError.LedgerAccountNotFound st
  | some account_model =>
    match findLastClosed st.stmts account_model.id ref_time with
    | some last_stmt =>
      let posting_lines :=
        find_by_account_and_pst_time_between st.lines account_model.id
          last_stmt.pst_time ref_time
      stmtAssemble st ledger_account last_stmt posting_lines
    | none =>
      let new_stmt : AccountStmtModel :=
        { id := st.nextId
          account_id := account_model.id
          youngest_pst_id := none
          total_debit := 0
          total_credit := 0
          posting_id := none
          pst_time := ref_time
          stmt_status := StmtStatus.Simulated
          latest_pst_id := none
          stmt_seq_nbr := 0 }
      let st1 := { st with nextId := st.nextId + 1 }
      let posting_lines :=
        find_by_account_and_pst_time_less_than_equal st1.lines account_model.id ref_time
      stmtAssemble st1 ledger_account new_stmt posting_lines

/-- Embeds `AccountStmtService::read_stmt` for `AccountStmtServiceImpl`: build only. -/
def read_stmt (st : Store) (ledger_account : LedgerAccountBO) (ref_time : Time) :
    Res AccountStmtBO :=
  stmtF st ledger_account ref_time

/-- Embeds `AccountStmtService::create_stmt` for `AccountStmtServiceImpl`: build,
then unconditionally save the resulting statement row. -/
def create_stmt (st : Store) (ledger_account : LedgerAccountBO) (ref_time : Time) :
    Res AccountStmtBO :=
  match stmtF st ledger_account ref_time with
  | Res.ok stmt_bo st1 =>
    Res.ok stmt_bo { st1 with stmts := st1.stmts ++ [AccountStmtMapper.from_bo stmt_bo] }
  | Res.err e st1 => Res.err e st1
  | Res.crashed st1 => Res.crashed st1

/-- Embeds `AccountStmtService::close_stmt` for `AccountStmtServiceImpl`: reload the
row, reject if already Closed, resolve ledger and chart of accounts (two
unchecked `unwrap()`s), build the zero-line balance-statement posting linked to
the ledger's most recent posting, hash it, save it, then mark and save the
statement row Closed and return the domain statement Closed with the posting
attached. -/
def close_stmt (st : Store) (stmt : AccountStmtBO) : Res AccountStmtBO :=
  match stmt_find_by_id st.stmts stmt.financial_stmt.id with
  | none => Res.err ServiceError.StatementNotFound st
  | some stmt_model =>
    if stmt_model.stmt_status = StmtStatus.Closed then
      Res.err ServiceError.StatementAlreadyClosed st
    else
      match ledger_find_by_id st.ledgers stmt.account.ledger.id with
      | none => Res.crashed st
      | some ledger_model =>
        match coa_find_by_id st.coas ledger_model.coa_id with
        | none => Res.crashed st
        | some coa_model =>
          let coa_bo := ChartOfAccountMapper.to_bo coa_model
          let ledger_bo := LedgerMapper.to_bo ledger_model coa_bo
          let pid := st.nextId
          let st1 := { st with nextId := st.nextId + 1 }
          let closing_posting : Posting :=
            { id := pid
              record_user := 0
              record_time := st1.now
              opr_id := 0
              opr_time := st1.now
              opr_type := 0
              opr_details := none
              opr_src := none
              pst_time := stmt.financial_stmt.pst_time
              pst_type := PostingType.BalStmt
              pst_status := PostingStatus.Posted
              ledger := ledger_bo
              val_time := some st1.now
              lines := []
              discarded_id := none
              discarded_time := none
              discarding_id := none
              hash_record := { hash := none, antecedent_id := none, antecedent_hash := none } }
          let closing_posting :=
            match find_first_by_ledger_order_by_record_time_desc st1.postings
                closing_posting.ledger.id with
            | some ant =>
              { closing_posting with
                  hash_record :=
                    { closing_posting.hash_record with
                        antecedent_id := some ant.id
                        antecedent_hash := ant.hash } }
            | none => closing_posting
          match hash_serialize closing_posting with
          | none => Res.err ServiceError.NotEnoughInfo st1
          | some h =>
            let closing_posting :=
              { closing_posting with
                  hash_record := { closing_posting.hash_record with hash := some h } }
            let posting_model := PostingMapper.to_model closing_posting
            let st2 := { st1 with postings := st1.postings ++ [posting_model] }
            let stmt_model2 :=
              { stmt_model with
                  stmt_status := StmtStatus.Closed
                  posting_id := some closing_posting.id }
            let st3 := { st2 with stmts := st2.stmts ++ [stmt_model2] }
            let closed_stmt_bo :=
              { stmt with
                  financial_stmt :=
                    { stmt.financial_stmt with
                        stmt_status := ApiStmtStatus.CLOSED
                        posting := some closing_posting } }
            Res.ok closed_stmt_bo st3

/-- Sum of the debit amounts of a list of posting lines. -/
def sumDebits (L : List PostingLine) : Amount :=
  (L.map PostingLine.debit_amount).sum

/-- Sum of the credit amounts of a list of posting lines. -/
def sumCredits (L : List PostingLine) : Amount :=
  (L.map PostingLine.credit_amount).sum

/-- The trace rows one aggregation pass generates for a list of lines, with
fresh ids `n`, `n+1`, …: one trace per line, targeting the statement, carrying
the line's time, id, operation id, the statement's account, the line's amounts
and its hash. -/
def mkTraces (n : Nat) (stmt : AccountStmtModel) : List PostingLine → List PostingTrace
  | [] => []
  | l :: ls =>
    { id := n
      tgt_pst_id := stmt.id
      src_pst_time := l.pst_time
      src_pst_id := l.id
      src_opr_id := l.opr_id
      account_id := stmt.account_id
      debit_amount := l.debit_amount
      credit_amount := l.credit_amount
      src_pst_hash := l.hash } :: mkTraces (n + 1) stmt ls

/-- Example chart-of-accounts row. -/
def exCoa : ChartOfAccountModel := { id := 1 }

/-- Example ledger row owning `exCoa`. -/
def exLedger : LedgerModel := { id := 2, coa_id := 1 }

/-- Example account row: balance side Dr, category Asset (spec §8 example). -/
def exAcct : LedgerAccountModel :=
  { id := 3, ledger_id := 2, parent_id := none, coa_id := 1
    balance_side := BalanceSide.Dr, category := AccountCategory.AS }

/-- Example domain account matching `exAcct`. -/
def exLa : LedgerAccountBO :=
  LedgerAccountBO.mk 3 { id := 2, coa := { id := 1 } } none { id := 1 }
    ApiBalanceSide.Dr ApiAccountCategory.AS

/-- Example line: debit 100 at time 1 (spec §8 example). -/
def exLine1 : PostingLine :=
  { id := 10, account_id := 3, debit_amount := 100, credit_amount := 0
    pst_time := 1, opr_id := 40, hash := some 77 }

/-- Example line: credit 30 at time 2 (spec §8 example). -/
def exLine2 : PostingLine :=
  { id := 11, account_id := 3, debit_amount := 0, credit_amount := 30
    pst_time := 2, opr_id := 41, hash := none }

/-- Example store: the account with its two lines, no statements yet. -/
def exSt : Store :=
  { accounts := [exAcct], stmts := [], lines := [exLine1, exLine2], traces := []
    postings := [], ledgers := [exLedger], coas := [exCoa], nextId := 100, now := 50 }

/-- Example Closed baseline statement row for `exAcct` at time 1. -/
def exBase : AccountStmtModel :=
  { id := 7, account_id := 3, youngest_pst_id := none, total_debit := 100
    total_credit := 0, posting_id := none, pst_time := 1
    stmt_status := StmtStatus.Closed, latest_pst_id := none, stmt_seq_nbr := 1 }

/-- Example store with the Closed baseline `exBase`. -/
def exSt2 : Store := { exSt with stmts := [exBase] }

/-- Example domain statement whose row `exBase` is already Closed. -/
def exStmtBO : AccountStmtBO :=
  { financial_stmt :=
      { id := 7, posting := none, pst_time := 1, stmt_status := ApiStmtStatus.CLOSED
        latest_pst := none, stmt_seq_nbr := 1 }
    account := exLa, youngest_pst := none, total_debit := 100, total_credit := 0 }

/-- Example Simulated (not yet Closed) statement row for `exAcct` at time 2. -/
def exSim : AccountStmtModel :=
  { id := 8, account_id := 3, youngest_pst_id := none, total_debit := 100
    total_credit := 30, posting_id := none, pst_time := 2
    stmt_status := StmtStatus.Simulated, latest_pst_id := none, stmt_seq_nbr := 0 }

/-- Example store holding both the Closed baseline and the Simulated row. -/
def exSt3 : Store := { exSt with stmts := [exBase, exSim] }

/-- Example domain statement for the Simulated row `exSim`. -/
def exStmtBO2 : AccountStmtBO :=
  { financial_stmt :=
      { id := 8, posting := none, pst_time := 2, stmt_status := ApiStmtStatus.SIMULATED
        latest_pst := none, stmt_seq_nbr := 0 }
    account := exLa, youngest_pst := none, total_debit := 100, total_credit := 30 }

/-- Example store whose ledger directory is empty (the close-time unwrap). -/
def exSt4 : Store := { exSt3 with ledgers := [] }

/-- Example store with a Closed baseline and no posting lines at all. -/
def exStC6 : Store := { exSt2 with lines := [] }

theorem insertByTime_perm (l : PostingLine) (xs : List PostingLine) :
    (insertByTime l xs).Perm (l :: xs) := by
  induction xs with
  | nil => simp [insertByTime]
  | cons x xs ih =>
    simp only [insertByTime]
    split
    · exact List.Perm.refl _
    · exact (ih.cons x).trans (List.Perm.swap l x xs)

theorem sortByTime_perm (xs : List PostingLine) : (sortByTime xs).Perm xs := by
  induction xs with
  | nil => simp [sortByTime]
  | cons x xs ih => exact (insertByTime_perm x (sortByTime xs)).trans (ih.cons x)

theorem sumDebits_perm {L1 L2 : List PostingLine} (h : L1.Perm L2) :
    sumDebits L1 = sumDebits L2 :=
  List.Perm.sum_eq (h.map PostingLine.debit_amount)

theorem sumCredits_perm {L1 L2 : List PostingLine} (h : L1.Perm L2) :
    sumCredits L1 = sumCredits L2 :=
  List.Perm.sum_eq (h.map PostingLine.credit_amount)

theorem sumDebits_sortByTime (L : List PostingLine) :
    sumDebits (sortByTime L) = sumDebits L :=
  sumDebits_perm (sortByTime_perm L)

theorem sumCredits_sortByTime (L : List PostingLine) :
    sumCredits (sortByTime L) = sumCredits L :=
  sumCredits_perm (sortByTime_perm L)

theorem processLines_id (st : Store) (s : AccountStmtModel) (L : List PostingLine) :
    (processLines st s L).1.id = s.id := by
  induction L generalizing st s with
  | nil => rfl
  | cons l ls ih => simp [processLines, refresh_statement, ih]

theorem processLines_account_id (st : Store) (s : AccountStmtModel) (L : List PostingLine) :
    (processLines st s L).1.account_id = s.account_id := by
  induction L generalizing st s with
  | nil => rfl
  | cons l ls ih => simp [processLines, refresh_statement, ih]

theorem processLines_pst_time (st : Store) (s : AccountStmtModel) (L : List PostingLine) :
    (processLines st s L).1.pst_time = s.pst_time := by
  induction L generalizing st s with
  | nil => rfl
  | cons l ls ih => simp [processLines, refresh_statement, ih]

theorem processLines_stmt_status (st : Store) (s : AccountStmtModel) (L : List PostingLine) :
    (processLines st s L).1.stmt_status = s.stmt_status := by
  induction L generalizing st s with
  | nil => rfl
  | cons l ls ih => simp [processLines, refresh_statement, ih]

theorem processLines_stmt_seq_nbr (st : Store) (s : AccountStmtModel) (L : List PostingLine) :
    (processLines st s L).1.stmt_seq_nbr = s.stmt_seq_nbr := by
  induction L generalizing st s with
  | nil => rfl
  | cons l ls ih => simp [processLines, refresh_statement, ih]

theorem processLines_posting_id (st : Store) (s : AccountStmtModel) (L : List PostingLine) :
    (processLines st s L).1.posting_id = s.posting_id := by
  induction L generalizing st s with
  | nil => rfl
  | cons l ls ih => simp [processLines, refresh_statement, ih]

theorem processLines_total_debit (st : Store) (s : AccountStmtModel) (L : List PostingLine) :
    (processLines st s L).1.total_debit = s.total_debit + sumDebits L := by
  induction L generalizing st s with
  | nil => simp [processLines, sumDebits]
  | cons l ls ih =>
    simp [processLines, refresh_statement, ih, sumDebits]
    ring

theorem processLines_total_credit (st : Store) (s : AccountStmtModel) (L : List PostingLine) :
    (processLines st s L).1.total_credit = s.total_credit + sumCredits L := by
  induction L generalizing st s with
  | nil => simp [processLines, sumCredits]
  | cons l ls ih =>
    simp [processLines, refresh_statement, ih, sumCredits]
    ring

theorem processLines_stmts (st : Store) (s : AccountStmtModel) (L : List PostingLine) :
    (processLines st s L).2.stmts = st.stmts := by
  induction L generalizing st s with
  | nil => rfl
  | cons l ls ih => simp [processLines, refresh_statement, ih]

theorem processLines_lines (st : Store) (s : AccountStmtModel) (L : List PostingLine) :
    (processLines st s L).2.lines = st.lines := by
  induction L generalizing st s with
  | nil => rfl
  | cons l ls ih => simp [processLines, refresh_statement, ih]

theorem processLines_accounts (st : Store) (s : AccountStmtModel) (L : List PostingLine) :
    (processLines st s L).2.accounts = st.accounts := by
  induction L generalizing st s with
  | nil => rfl
  | cons l ls ih => simp [processLines, refresh_statement, ih]

theorem processLines_postings (st : Store) (s : AccountStmtModel) (L : List PostingLine) :
    (processLines st s L).2.postings = st.postings := by
  induction L generalizing st s with
  | nil => rfl
  | cons l ls ih => simp [processLines, refresh_statement, ih]

theorem processLines_ledgers (st : Store) (s : AccountStmtModel) (L : List PostingLine) :
    (processLines st s L).2.ledgers = st.ledgers := by
  induction L generalizing st s with
  | nil => rfl
  | cons l ls ih => simp [processLines, refresh_statement, ih]

theorem processLines_coas (st : Store) (s : AccountStmtModel) (L : List PostingLine) :
    (processLines st s L).2.coas = st.coas := by
  induction L generalizing st s with
  | nil => rfl
  | cons l ls ih => simp [processLines, refresh_statement, ih]

theorem processLines_now (st : Store) (s : AccountStmtModel) (L : List PostingLine) :
    (processLines st s L).2.now = st.now := by
  induction L generalizing st s with
  | nil => rfl
  | cons l ls ih => simp [processLines, refresh_statement, ih]

theorem processLines_nextId (st : Store) (s : AccountStmtModel) (L : List PostingLine) :
    (processLines st s L).2.nextId = st.nextId + L.length := by
  induction L generalizing st s with
  | nil => simp [processLines]
  | cons l ls ih =>
    simp [processLines, refresh_statement, ih]
    omega

theorem mkTraces_congr (n : Nat) (s s' : AccountStmtModel) (L : List PostingLine)
    (h1 : s'.id = s.id) (h2 : s'.account_id = s.account_id) :
    mkTraces n s' L = mkTraces n s L := by
  induction L generalizing n with
  | nil => rfl
  | cons l ls ih => simp [mkTraces, h1, h2, ih]

theorem processLines_traces (st : Store) (s : AccountStmtModel) (L : List PostingLine) :
    (processLines st s L).2.traces = st.traces ++ mkTraces st.nextId s L := by
  induction L generalizing st s with
  | nil => simp [processLines, mkTraces]
  | cons l ls ih =>
    simp only [processLines, refresh_statement, mkTraces]
    rw [ih]
    simp [create_posting_trace]
    exact mkTraces_congr _ _ _ _ rfl rfl

theorem processLines_youngest (st : Store) (s : AccountStmtModel) (L : List PostingLine) :
    (processLines st s L).1.youngest_pst_id =
      match s.youngest_pst_id with
      | some y => some y
      | none => if L.isEmpty then none else some st.nextId := by
  induction L generalizing st s with
  | nil => cases h : s.youngest_pst_id <;> simp [processLines, h]
  | cons l ls ih =>
    cases h : s.youngest_pst_id with
    | some y => simp [processLines, refresh_statement, ih, h]
    | none => simp [processLines, refresh_statement, ih, h, create_posting_trace]

theorem processLines_latest (st : Store) (s : AccountStmtModel) (L : List PostingLine) :
    (processLines st s L).1.latest_pst_id =
      if L.isEmpty then s.latest_pst_id else some (st.nextId + (L.length - 1)) := by
  induction L generalizing st s with
  | nil => simp [processLines]
  | cons l ls ih =>
    simp only [processLines]
    rw [ih]
    cases ls with
    | nil => simp [refresh_statement, create_posting_trace]
    | cons a as =>
      simp only [refresh_statement, create_posting_trace, List.isEmpty_cons,
        List.length_cons]
      simp only [Bool.false_eq_true, if_false, Option.some.injEq, Nat.add_sub_cancel]
      ring

theorem maxByPstTime_mem (ss : List AccountStmtModel) (S : AccountStmtModel)
    (h : maxByPstTime ss = some S) : S ∈ ss := by
  induction ss with
  | nil => simp [maxByPstTime] at h
  | cons s ss ih =>
    cases hm : maxByPstTime ss with
    | none =>
      simp only [maxByPstTime, hm] at h
      simp only [Option.some.injEq] at h
      subst h
      exact List.mem_cons_self s ss
    | some b =>
      simp only [maxByPstTime, hm] at h
      split at h
      · simp only [Option.some.injEq] at h
        subst h
        exact List.mem_cons_of_mem s (ih hm)
      · simp only [Option.some.injEq] at h
        subst h
        exact List.mem_cons_self s ss

theorem findLastClosed_props (ss : List AccountStmtModel) (a : Uuid) (t : Time)
    (S : AccountStmtModel) (h : findLastClosed ss a t = some S) :
    S.account_id = a ∧ S.stmt_status = StmtStatus.Closed ∧ S.pst_time < t := by
  have hmem := maxByPstTime_mem _ _ h
  rw [List.mem_filter] at hmem
  obtain ⟨-, hp⟩ := hmem
  simp at hp
  exact ⟨hp.1.1, hp.1.2, hp.2⟩

theorem findLastClosed_append_not_closed (ss : List AccountStmtModel)
    (r : AccountStmtModel) (a : Uuid) (t : Time)
    (h : r.stmt_status = StmtStatus.Simulated) :
    findLastClosed (ss ++ [r]) a t = findLastClosed ss a t := by
  unfold findLastClosed
  rw [List.filter_append]
  have hone : (List.filter (fun s =>
      s.account_id == a && s.stmt_status == StmtStatus.Closed && decide (s.pst_time < t))
      [r]) = [] := by
    simp [List.filter_cons, h]
  rw [hone, List.append_nil]

theorem balanceSide_model_bo_model (s : BalanceSide) :
    balanceSideToModel (balanceSideToBo s) = s := by
  cases s <;> rfl

theorem balanceSide_bo_model_bo (s : ApiBalanceSide) :
    balanceSideToBo (balanceSideToModel s) = s := by
  cases s <;> rfl

theorem category_model_bo_model (c : AccountCategory) :
    categoryToModel (categoryToBo c) = c := by
  cases c <;> rfl

theorem category_bo_model_bo (c : ApiAccountCategory) :
    categoryToBo (categoryToModel c) = c := by
  cases c <;> rfl

/-- C9: the persisted/domain translations of `BalanceSide` and
`AccountCategory` are total and mutually inverse in both directions, and
mapping an account row to its domain object (against ledger, chart-of-accounts
and parent business objects whose ids equal the row's `ledger_id`, `coa_id`
and `parent_id`) and back returns the original row. -/
theorem C9_mapper_bijective :
    (∀ s, balanceSideToModel (balanceSideToBo s) = s) ∧
    (∀ s, balanceSideToBo (balanceSideToModel s) = s) ∧
    (∀ c, categoryToModel (categoryToBo c) = c) ∧
    (∀ c, categoryToBo (categoryToModel c) = c) ∧
    (∀ (m : LedgerAccountModel) (lb : LedgerBO) (cb : ChartOfAccountBO)
        (pb : Option LedgerAccountBO),
      lb.id = m.ledger_id → cb.id = m.coa_id →
      pb.map LedgerAccountBO.id = m.parent_id →
      LedgerAccountMapper.to_model (LedgerAccountMapper.to_bo m lb cb pb) = m) := by
  refine ⟨balanceSide_model_bo_model, balanceSide_bo_model_bo,
    category_model_bo_model, category_bo_model_bo, ?_⟩
  intro m lb cb pb h1 h2 h3
  cases m
  simp_all [LedgerAccountMapper.to_model, LedgerAccountMapper.to_bo,
    LedgerAccountBO.id, LedgerAccountBO.ledger, LedgerAccountBO.parent,
    LedgerAccountBO.coa, LedgerAccountBO.balance_side, LedgerAccountBO.category,
    balanceSide_model_bo_model, category_model_bo_model]

/-- C9 witness: the roundtrip at the concrete example account row. -/
theorem C9_witness :
    LedgerAccountMapper.to_model (LedgerAccountMapper.to_bo exAcct
      { id := 2, coa := { id := 1 } } { id := 1 } none) = exAcct :=
  C9_mapper_bijective.2.2.2.2 exAcct { id := 2, coa := { id := 1 } } { id := 1 } none
    rfl rfl rfl

/-- C4: `close_stmt` on a statement whose persisted row is already Closed
fails with `StatementAlreadyClosed` and leaves the storage state untouched. -/
theorem C4_close_already_closed (st : Store) (stmt : AccountStmtBO)
    (m : AccountStmtModel)
    (hfind : stmt_find_by_id st.stmts stmt.financial_stmt.id = some m)
    (hclosed : m.stmt_status = StmtStatus.Closed) :
    close_stmt st stmt = Res.err ServiceError.StatementAlreadyClosed st := by
  unfold close_stmt
  simp only [hfind]
  rw [if_pos hclosed]

/-- C4 witness: closing the already-Closed example statement errs without
writing. -/
theorem C4_witness :
    stmt_find_by_id exSt2.stmts exStmtBO.financial_stmt.id = some exBase ∧
    exBase.stmt_status = StmtStatus.Closed ∧
    close_stmt exSt2 exStmtBO = Res.err ServiceError.StatementAlreadyClosed exSt2 :=
  ⟨rfl, rfl, C4_close_already_closed exSt2 exStmtBO exBase rfl rfl⟩

/-- C8: when the statement exists and is not Closed but the ledger lookup or
the chart-of-accounts lookup returns no record, `close_stmt` aborts through an
unchecked `unwrap()` instead of returning an explicit error. -/
theorem C8_close_unwrap_crash (st : Store) (stmt : AccountStmtBO)
    (m : AccountStmtModel)
    (hfind : stmt_find_by_id st.stmts stmt.financial_stmt.id = some m)
    (hopen : m.stmt_status ≠ StmtStatus.Closed)
    (hmiss : ledger_find_by_id st.ledgers stmt.account.ledger.id = none ∨
      (∃ lm, ledger_find_by_id st.ledgers stmt.account.ledger.id = some lm ∧
        coa_find_by_id st.coas lm.coa_id = none)) :
    close_stmt st stmt = Res.crashed st := by
  unfold close_stmt
  simp only [hfind]
  rw [if_neg hopen]
  rcases hmiss with h | ⟨lm, h1, h2⟩
  · simp [h]
  · simp [h1, h2]

/-- C8 witness: closing the not-yet-Closed example statement against a store
with an empty ledger directory aborts. -/
theorem C8_witness :
    stmt_find_by_id exSt4.stmts exStmtBO2.financial_stmt.id = some exSim ∧
    exSim.stmt_status ≠ StmtStatus.Closed ∧
    ledger_find_by_id exSt4.ledgers exStmtBO2.account.ledger.id = none ∧
    close_stmt exSt4 exStmtBO2 = Res.crashed exSt4 :=
  ⟨rfl, by decide, rfl,
    C8_close_unwrap_crash exSt4 exStmtBO2 exSim rfl (by decide) (Or.inl rfl)⟩

/-- C3, as amended: `read_stmt` never writes a statement row or a posting —
the statement, posting, line, account, ledger and chart-of-accounts stores are
unchanged by the call (it does, however, persist posting traces; see the
counterexample). -/
theorem C3_read_stmt_frame (st : Store) (la : LedgerAccountBO) (t : Time) :
    (read_stmt st la t).store.stmts = st.stmts ∧
    (read_stmt st la t).store.postings = st.postings ∧
    (read_stmt st la t).store.lines = st.lines ∧
    (read_stmt st la t).store.accounts = st.accounts ∧
    (read_stmt st la t).store.ledgers = st.ledgers ∧
    (read_stmt st la t).store.coas = st.coas := by
  unfold read_stmt stmtF
  cases hacc : load_ledger_account st la.id with
  | none => simp [Res.store]
  | some am =>
    cases hS : findLastClosed st.stmts am.id t with
    | some S =>
      simp [hS, stmtAssemble, Res.store, processLines_stmts, processLines_postings,
        processLines_lines, processLines_accounts, processLines_ledgers,
        processLines_coas]
    | none =>
      simp [hS, stmtAssemble, Res.store, processLines_stmts, processLines_postings,
        processLines_lines, processLines_accounts, processLines_ledgers,
        processLines_coas]

/-- C3 counterexample: at the example store, `read_stmt` does write — it
persists one posting trace per gathered line, so the trace store changes. -/
theorem C3_counterexample :
    ¬ ((read_stmt exSt exLa 2).store.traces = exSt.traces) := by decide

/-- C1: for an account with no prior Closed statement before `ref_time`,
`read_stmt` starts a fresh Simulated statement with zero totals, gathers
exactly the account's posting lines with effective time ≤ `ref_time`, and
returns `total_debit`/`total_credit` equal to the sums of those lines' debit
and credit amounts. -/
theorem C1_read_stmt_no_baseline (st : Store) (la : LedgerAccountBO) (t : Time)
    (am : LedgerAccountModel)
    (hacc : load_ledger_account st la.id = some am)
    (hnone : findLastClosed st.stmts am.id t = none) :
    ∃ bo st1, read_stmt st la t = Res.ok bo st1 ∧
      bo.financial_stmt.stmt_status = ApiStmtStatus.SIMULATED ∧
      bo.total_debit = 0 + sumDebits (st.lines.filter
        (fun l => l.account_id == am.id && decide (l.pst_time ≤ t))) ∧
      bo.total_credit = 0 + sumCredits (st.lines.filter
        (fun l => l.account_id == am.id && decide (l.pst_time ≤ t))) := by
  unfold read_stmt stmtF
  simp only [hacc, hnone]
  simp only [stmtAssemble, find_by_account_and_pst_time_less_than_equal]
  refine ⟨_, _, rfl, ?_, ?_, ?_⟩
  · simp [processLines_stmt_status, stmtStatusToBo]
  · simp [processLines_total_debit, sumDebits_sortByTime]
  · simp [processLines_total_credit, sumCredits_sortByTime]

/-- C1 witness: the spec §8 example — lines debit 100 at time 1 and credit 30
at time 2, no Closed statement, `read_stmt` at time 2. -/
theorem C1_witness :
    load_ledger_account exSt exLa.id = some exAcct ∧
    findLastClosed exSt.stmts exAcct.id 2 = none ∧
    (∃ bo st1, read_stmt exSt exLa 2 = Res.ok bo st1 ∧
      bo.financial_stmt.stmt_status = ApiStmtStatus.SIMULATED ∧
      bo.total_debit = 0 + sumDebits (exSt.lines.filter
        (fun l => l.account_id == exAcct.id && decide (l.pst_time ≤ (2 : Time)))) ∧
      bo.total_credit = 0 + sumCredits (exSt.lines.filter
        (fun l => l.account_id == exAcct.id && decide (l.pst_time ≤ (2 : Time))))) :=
  ⟨rfl, rfl, C1_read_stmt_no_baseline exSt exLa 2 exAcct rfl rfl⟩

/-- C2: with a most-recent prior Closed statement `S` strictly before
`ref_time`, `read_stmt` returns `S`'s totals plus the sums over the window
from `S`'s effective time to `ref_time`, both ends inclusive. -/
theorem C2_read_stmt_with_baseline (st : Store) (la : LedgerAccountBO) (t : Time)
    (am : LedgerAccountModel) (S : AccountStmtModel)
    (hacc : load_ledger_account st la.id = some am)
    (hS : findLastClosed st.stmts am.id t = some S) :
    ∃ bo st1, read_stmt st la t = Res.ok bo st1 ∧
      bo.total_debit = S.total_debit + sumDebits (st.lines.filter
        (fun l => l.account_id == am.id && decide (S.pst_time ≤ l.pst_time) &&
          decide (l.pst_time ≤ t))) ∧
      bo.total_credit = S.total_credit + sumCredits (st.lines.filter
        (fun l => l.account_id == am.id && decide (S.pst_time ≤ l.pst_time) &&
          decide (l.pst_time ≤ t))) := by
  unfold read_stmt stmtF
  simp only [hacc, hS]
  simp only [stmtAssemble, find_by_account_and_pst_time_between]
  refine ⟨_, _, rfl, ?_, ?_⟩
  · simp [processLines_total_debit, sumDebits_sortByTime]
  · simp [processLines_total_credit, sumCredits_sortByTime]

/-- C2 witness: the baseline Closed at time 1 with totals 100/0 plus the
window lines between time 1 and time 2 (both lines fall in the window). -/
theorem C2_witness :
    load_ledger_account exSt2 exLa.id = some exAcct ∧
    findLastClosed exSt2.stmts exAcct.id 2 = some exBase ∧
    (∃ bo st1, read_stmt exSt2 exLa 2 = Res.ok bo st1 ∧
      bo.total_debit = exBase.total_debit + sumDebits (exSt2.lines.filter
        (fun l => l.account_id == exAcct.id && decide (exBase.pst_time ≤ l.pst_time) &&
          decide (l.pst_time ≤ (2 : Time)))) ∧
      bo.total_credit = exBase.total_credit + sumCredits (exSt2.lines.filter
        (fun l => l.account_id == exAcct.id && decide (exBase.pst_time ≤ l.pst_time) &&
          decide (l.pst_time ≤ (2 : Time))))) :=
  ⟨rfl, rfl, C2_read_stmt_with_baseline exSt2 exLa 2 exAcct exBase rfl rfl⟩

/-- C10: when a prior Closed baseline `S` exists strictly before `ref_time`,
the statement `read_stmt` and `create_stmt` return carries `S`'s identity,
sequence number, status CLOSED and `S`'s effective time, and the row
`create_stmt` persists is likewise `S`'s identity with status Closed — no
fresh Simulated statement is created. -/
theorem C10_baseline_identity (st : Store) (la : LedgerAccountBO) (t : Time)
    (am : LedgerAccountModel) (S : AccountStmtModel)
    (hacc : load_ledger_account st la.id = some am)
    (hS : findLastClosed st.stmts am.id t = some S) :
    ∃ bo st1 st2,
      read_stmt st la t = Res.ok bo st1 ∧
      bo.financial_stmt.id = S.id ∧
      bo.financial_stmt.stmt_seq_nbr = S.stmt_seq_nbr ∧
      bo.financial_stmt.stmt_status = ApiStmtStatus.CLOSED ∧
      bo.financial_stmt.pst_time = S.pst_time ∧
      create_stmt st la t = Res.ok bo st2 ∧
      st2.stmts = st.stmts ++ [AccountStmtMapper.from_bo bo] ∧
      (AccountStmtMapper.from_bo bo).id = S.id ∧
      (AccountStmtMapper.from_bo bo).stmt_status = StmtStatus.Closed := by
  have hSclosed := (findLastClosed_props st.stmts am.id t S hS).2.1
  unfold read_stmt create_stmt stmtF
  simp only [hacc, hS]
  simp only [stmtAssemble]
  refine ⟨_, _, _, rfl, ?_, ?_, ?_, ?_, rfl, ?_, ?_, ?_⟩
  · simp [processLines_id]
  · simp [processLines_stmt_seq_nbr]
  · simp [processLines_stmt_status, hSclosed, stmtStatusToBo]
  · simp [processLines_pst_time]
  · simp [processLines_stmts]
  · simp [AccountStmtMapper.from_bo, processLines_id]
  · simp [AccountStmtMapper.from_bo, processLines_stmt_status, hSclosed,
      stmtStatusToBo, stmtStatusToModel]

/-- C10 witness: at the example store with the Closed baseline at time 1,
reading and creating at time 2 both return the baseline's identity. -/
theorem C10_witness :
    load_ledger_account exSt2 exLa.id = some exAcct ∧
    findLastClosed exSt2.stmts exAcct.id 2 = some exBase ∧
    (∃ bo st1 st2,
      read_stmt exSt2 exLa 2 = Res.ok bo st1 ∧
      bo.financial_stmt.id = exBase.id ∧
      bo.financial_stmt.stmt_seq_nbr = exBase.stmt_seq_nbr ∧
      bo.financial_stmt.stmt_status = ApiStmtStatus.CLOSED ∧
      bo.financial_stmt.pst_time = exBase.pst_time ∧
      create_stmt exSt2 exLa 2 = Res.ok bo st2 ∧
      st2.stmts = exSt2.stmts ++ [AccountStmtMapper.from_bo bo] ∧
      (AccountStmtMapper.from_bo bo).id = exBase.id ∧
      (AccountStmtMapper.from_bo bo).stmt_status = StmtStatus.Closed) :=
  ⟨rfl, rfl, C10_baseline_identity exSt2 exLa 2 exAcct exBase rfl rfl⟩

/-- C5: closing a non-Closed persisted statement (with the ledger and
chart-of-accounts records present) persists a posting with an empty line list,
type balance-statement and the statement's effective time; its antecedent
id/hash copy the ledger's most recently recorded posting when one exists and
stay empty otherwise; the returned statement is Closed with that posting
attached. -/
theorem C5_close_constructs_posting (st : Store) (stmt : AccountStmtBO)
    (m : AccountStmtModel) (lm : LedgerModel) (cm : ChartOfAccountModel)
    (hfind : stmt_find_by_id st.stmts stmt.financial_stmt.id = some m)
    (hopen : m.stmt_status ≠ StmtStatus.Closed)
    (hledg : ledger_find_by_id st.ledgers stmt.account.ledger.id = some lm)
    (hcoa : coa_find_by_id st.coas lm.coa_id = some cm) :
    ∃ bo cp st1, close_stmt st stmt = Res.ok bo st1 ∧
      cp.lines = [] ∧
      cp.pst_type = PostingType.BalStmt ∧
      cp.pst_time = stmt.financial_stmt.pst_time ∧
      st1.postings = st.postings ++ [PostingMapper.to_model cp] ∧
      bo.financial_stmt.stmt_status = ApiStmtStatus.CLOSED ∧
      bo.financial_stmt.posting = some cp ∧
      (∀ ant, find_first_by_ledger_order_by_record_time_desc st.postings lm.id = some ant →
        cp.hash_record.antecedent_id = some ant.id ∧
        cp.hash_record.antecedent_hash = ant.hash) ∧
      (find_first_by_ledger_order_by_record_time_desc st.postings lm.id = none →
        cp.hash_record.antecedent_id = none ∧
        cp.hash_record.antecedent_hash = none) := by
  unfold close_stmt
  simp only [hfind]
  rw [if_neg hopen]
  simp only [hledg, hcoa]
  simp only [LedgerMapper.to_bo, ChartOfAccountMapper.to_bo, hash_serialize]
  cases hant : find_first_by_ledger_order_by_record_time_desc st.postings lm.id with
  | some ant =>
    simp only [hant]
    refine ⟨_, _, _, rfl, rfl, rfl, rfl, rfl, rfl, rfl, ?_, ?_⟩
    · intro a ha
      simp only [Option.some.injEq] at ha
      subst ha
      exact ⟨rfl, rfl⟩
    · intro hn
      exact absurd hn (by simp)
  | none =>
    simp only [hant]
    refine ⟨_, _, _, rfl, rfl, rfl, rfl, rfl, rfl, rfl, ?_, ?_⟩
    · intro a ha
      exact absurd ha (by simp)
    · intro _
      exact ⟨rfl, rfl⟩

/-- C5 witness: closing the example Simulated statement against an empty
posting store — the genesis case, antecedent fields stay empty. -/
theorem C5_witness :
    stmt_find_by_id exSt3.stmts exStmtBO2.financial_stmt.id = some exSim ∧
    exSim.stmt_status ≠ StmtStatus.Closed ∧
    (∃ bo cp st1, close_stmt exSt3 exStmtBO2 = Res.ok bo st1 ∧
      cp.lines = [] ∧
      cp.pst_type = PostingType.BalStmt ∧
      cp.pst_time = exStmtBO2.financial_stmt.pst_time ∧
      st1.postings = exSt3.postings ++ [PostingMapper.to_model cp] ∧
      bo.financial_stmt.stmt_status = ApiStmtStatus.CLOSED ∧
      bo.financial_stmt.posting = some cp ∧
      (∀ ant, find_first_by_ledger_order_by_record_time_desc exSt3.postings exLedger.id =
          some ant →
        cp.hash_record.antecedent_id = some ant.id ∧
        cp.hash_record.antecedent_hash = ant.hash) ∧
      (find_first_by_ledger_order_by_record_time_desc exSt3.postings exLedger.id = none →
        cp.hash_record.antecedent_id = none ∧
        cp.hash_record.antecedent_hash = none)) :=
  ⟨rfl, by decide,
    C5_close_constructs_posting exSt3 exStmtBO2 exSim exLedger exCoa rfl (by decide) rfl rfl⟩

theorem create_stmt_no_baseline_spec (st : Store) (la : LedgerAccountBO) (t : Time)
    (am : LedgerAccountModel)
    (hacc : load_ledger_account st la.id = some am)
    (hnone : findLastClosed st.stmts am.id t = none) :
    ∃ bo st1, create_stmt st la t = Res.ok bo st1 ∧
      (AccountStmtMapper.from_bo bo).id = st.nextId ∧
      (AccountStmtMapper.from_bo bo).stmt_status = StmtStatus.Simulated ∧
      (AccountStmtMapper.from_bo bo).total_debit = sumDebits (st.lines.filter
        (fun l => l.account_id == am.id && decide (l.pst_time ≤ t))) ∧
      (AccountStmtMapper.from_bo bo).total_credit = sumCredits (st.lines.filter
        (fun l => l.account_id == am.id && decide (l.pst_time ≤ t))) ∧
      st1.stmts = st.stmts ++ [AccountStmtMapper.from_bo bo] ∧
      st1.accounts = st.accounts ∧
      st1.lines = st.lines ∧
      st.nextId < st1.nextId := by
  unfold create_stmt stmtF
  simp only [hacc, hnone]
  simp only [stmtAssemble, find_by_account_and_pst_time_less_than_equal]
  refine ⟨_, _, rfl, ?_, ?_, ?_, ?_, ?_, ?_, ?_, ?_⟩
  · simp [AccountStmtMapper.from_bo, processLines_id]
  · simp [AccountStmtMapper.from_bo, processLines_stmt_status, stmtStatusToBo,
      stmtStatusToModel]
  · simp [AccountStmtMapper.from_bo, processLines_total_debit, sumDebits_sortByTime]
  · simp [AccountStmtMapper.from_bo, processLines_total_credit, sumCredits_sortByTime]
  · simp [processLines_stmts]
  · simp [processLines_accounts]
  · simp [processLines_lines]
  · simp only [processLines_nextId]
    exact Nat.lt_of_lt_of_le (Nat.lt_succ_self _) (Nat.le_add_right _ _)

/-- C6, as amended: for an account with no prior Closed statement before
`ref_time`, `create_stmt` called twice consecutively with unchanged inputs and
no new lines persists two statement rows with identical totals but distinct
identities (when a Closed baseline exists both calls persist the baseline's
identity instead — see the counterexample). -/
theorem C6_create_twice_no_baseline (st : Store) (la : LedgerAccountBO) (t : Time)
    (am : LedgerAccountModel)
    (hacc : load_ledger_account st la.id = some am)
    (hnone : findLastClosed st.stmts am.id t = none) :
    ∃ bo1 st1 bo2 st2,
      create_stmt st la t = Res.ok bo1 st1 ∧
      create_stmt st1 la t = Res.ok bo2 st2 ∧
      st2.stmts = st.stmts ++
        [AccountStmtMapper.from_bo bo1, AccountStmtMapper.from_bo bo2] ∧
      (AccountStmtMapper.from_bo bo1).id ≠ (AccountStmtMapper.from_bo bo2).id ∧
      (AccountStmtMapper.from_bo bo1).total_debit =
        (AccountStmtMapper.from_bo bo2).total_debit ∧
      (AccountStmtMapper.from_bo bo1).total_credit =
        (AccountStmtMapper.from_bo bo2).total_credit := by
  obtain ⟨bo1, st1, hrun1, hid1, hsim1, hdeb1, hcred1, hstmts1, haccs1, hlines1, hlt1⟩ :=
    create_stmt_no_baseline_spec st la t am hacc hnone
  have hacc2 : load_ledger_account st1 la.id = some am := by
    unfold load_ledger_account at hacc ⊢
    rw [haccs1]
    exact hacc
  have hnone2 : findLastClosed st1.stmts am.id t = none := by
    rw [hstmts1, findLastClosed_append_not_closed st.stmts _ am.id t hsim1]
    exact hnone
  obtain ⟨bo2, st2, hrun2, hid2, hsim2, hdeb2, hcred2, hstmts2, haccs2, hlines2, hlt2⟩ :=
    create_stmt_no_baseline_spec st1 la t am hacc2 hnone2
  refine ⟨bo1, st1, bo2, st2, hrun1, hrun2, ?_, ?_, ?_, ?_⟩
  · rw [hstmts2, hstmts1]
    simp
  · rw [hid1, hid2]
    exact Nat.ne_of_lt hlt1
  · rw [hdeb1, hdeb2, hlines1]
  · rw [hcred1, hcred2, hlines1]

/-- C6 witness: two consecutive creates at the example store without a
baseline. -/
theorem C6_witness :
    load_ledger_account exSt exLa.id = some exAcct ∧
    findLastClosed exSt.stmts exAcct.id 2 = none ∧
    (∃ bo1 st1 bo2 st2,
      create_stmt exSt exLa 2 = Res.ok bo1 st1 ∧
      create_stmt st1 exLa 2 = Res.ok bo2 st2 ∧
      st2.stmts = exSt.stmts ++
        [AccountStmtMapper.from_bo bo1, AccountStmtMapper.from_bo bo2] ∧
      (AccountStmtMapper.from_bo bo1).id ≠ (AccountStmtMapper.from_bo bo2).id ∧
      (AccountStmtMapper.from_bo bo1).total_debit =
        (AccountStmtMapper.from_bo bo2).total_debit ∧
      (AccountStmtMapper.from_bo bo1).total_credit =
        (AccountStmtMapper.from_bo bo2).total_credit) :=
  ⟨rfl, rfl, C6_create_twice_no_baseline exSt exLa 2 exAcct rfl rfl⟩

/-- C6 counterexample: with the Closed baseline (id 7) and no lines, two
consecutive `create_stmt` calls both persist a row with the baseline's id 7 —
the two persisted rows are not distinct identities. -/
theorem C6_counterexample :
    (create_stmt (create_stmt exStC6 exLa 9).store exLa 9).store.stmts =
      [exBase, exBase, exBase] := by decide

theorem mkTraces_head (n : Nat) (s : AccountStmtModel) (L : List PostingLine) :
    (mkTraces n s L).head?.map PostingTrace.id = if L.isEmpty then none else some n := by
  cases L <;> simp [mkTraces]

theorem mkTraces_getLast (n : Nat) (s : AccountStmtModel) (L : List PostingLine) :
    (mkTraces n s L).getLast?.map PostingTrace.id =
      if L.isEmpty then none else some (n + (L.length - 1)) := by
  induction L generalizing n with
  | nil => rfl
  | cons l ls ih =>
    cases ls with
    | nil => simp [mkTraces]
    | cons a as =>
      have h2 := ih (n + 1)
      simp only [mkTraces] at h2 ⊢
      rw [List.getLast?_cons_cons, h2]
      simp only [List.isEmpty_cons, List.length_cons, Bool.false_eq_true, if_false,
        Nat.add_sub_cancel, Option.some.injEq]
      ring

/-- C7: one aggregation pass creates and persists, in ascending order, one
posting trace per gathered line — targeting the statement, with the line's
time, id, operation id, the statement's account, the line's amounts and its
hash —; the statement's first-trace pointer is set only if it was unset (to
the pass's first trace), and the latest-trace pointer ends at the pass's last
trace (unchanged when no line was gathered). -/
theorem C7_aggregation_traces (st : Store) (s : AccountStmtModel) (L : List PostingLine) :
    (processLines st s L).2.traces = st.traces ++ mkTraces st.nextId s L ∧
    (processLines st s L).1.youngest_pst_id =
      (match s.youngest_pst_id with
       | some y => some y
       | none => (mkTraces st.nextId s L).head?.map PostingTrace.id) ∧
    (processLines st s L).1.latest_pst_id =
      (match (mkTraces st.nextId s L).getLast?.map PostingTrace.id with
       | some i => some i
       | none => s.latest_pst_id) := by
  refine ⟨processLines_traces st s L, ?_, ?_⟩
  · rw [processLines_youngest, mkTraces_head]
  · rw [processLines_latest, mkTraces_getLast]
    cases L <;> simp
